import Mathlib

/-!
Shallow embedding of `sdk-core-protos/src/history_info.rs`.

The Rust module validates and segments a workflow execution history into
workflow-task boundaries.  Events are externally defined protobuf records; the
code only inspects the event-type discriminant and, for the first event, the
WorkflowExecutionStarted attributes (workflow type name, original run id).

Modelling decisions:
* `i64` event ids become `Int` (ids are only copied and compared, never
  arithmetically combined, so no wraparound can occur);
* `usize` task counts become `Nat` (counts only ever grow by one per scanned
  event, so `usize` overflow is unreachable for any real input);
* the `to_wf_task_num : Option<usize>` argument stays an `Option Nat`; the Rust
  code replaces `None` by `usize::MAX` and separately remembers `is_all_hist`,
  and a count can never reach `usize::MAX` (it increments once per event), so
  the truncation test `wf_task_count == to_wf_task_num` is modelled as
  `to_wf_task_num = some (wf_task_count + 1)` at the point of increment;
* fallible construction returns `Except HistErr HistoryInfo`; the `anyhow`
  string errors are represented by the constructors of `HistErr`, and the
  `unreachable!()` panic at the end of the scan loop is the distinguished
  `HistErr.unreachableState`;
* the panicking operations (`make_incremental`'s `.expect`, `orig_run_id`'s
  `panic!` / out-of-bounds index) return `Option`, with `none` as the panic.
-/

namespace TemporalHist

/-- Event-type discriminant (`EventType` proto enum).  Only the kinds the code
inspects are named; every other kind behaves uniformly and is `otherEvent`. -/
inductive EventType where
  | workflowExecutionStarted
  | workflowExecutionCompleted
  | workflowExecutionFailed
  | workflowExecutionTimedOut
  | workflowExecutionCanceled
  | workflowExecutionTerminated
  | workflowExecutionContinuedAsNew
  | workflowTaskScheduled
  | workflowTaskStarted
  | workflowTaskCompleted
  | workflowTaskFailed
  | workflowTaskTimedOut
  | timerStarted
  | timerFired
  | otherEvent
  deriving DecidableEq, Repr

/-- `common::v1::WorkflowType` (only the name is read). -/
structure WorkflowType where
  name : String
  deriving DecidableEq, Repr

/-- The WorkflowExecutionStarted attributes fields the code reads. -/
structure WorkflowExecutionStartedEventAttributes where
  workflow_type : Option WorkflowType
  original_execution_run_id : String
  deriving DecidableEq, Repr

/-- `history_event::Attributes` oneof: the code only distinguishes the
WorkflowExecutionStarted variant from everything else. -/
inductive Attributes where
  | workflowExecutionStartedEventAttributes
      (attrs : WorkflowExecutionStartedEventAttributes)
  | otherAttributes
  deriving DecidableEq, Repr

/-- `history::v1::HistoryEvent` restricted to the fields the code reads. -/
structure HistoryEvent where
  event_id : Int
  event_type : EventType
  attributes : Option Attributes
  deriving DecidableEq, Repr

/-- `history::v1::History`. -/
structure History where
  events : List HistoryEvent
  deriving DecidableEq, Repr

/-- The validated aggregate built by `HistoryInfo::new_from_history`. -/
structure HistoryInfo where
  previous_started_event_id : Int
  workflow_task_started_event_id : Int
  events : List HistoryEvent
  wf_task_count : Nat
  wf_type : String
  deriving DecidableEq, Repr

/-- Construction-time failures.  The Rust code returns `anyhow` string errors;
each `bail!` site is one constructor here.  `unreachableState` stands for the
`unreachable!()` panic after the scan loop. -/
inductive HistErr where
  | emptyHistory
  | missingWorkflowType
  | malformedFirstEvent
  | duplicateStartedId
  | unexpectedEventAfterTaskStarted
  | unexpectedHistoryEnd
  | unreachableState
  deriving DecidableEq, Repr

/-- Modelled from the spec: `HistoryEvent::is_final_wf_execution_event` is
defined on the history-event extension trait outside this module.  Per the
spec, a terminal workflow-execution event is "any event marking workflow
completion, failure, cancellation, termination, continuation, or timeout". -/
def isFinalWfExecutionEvent (e : HistoryEvent) : Bool :=
  match e.event_type with
  | .workflowExecutionCompleted => true
  | .workflowExecutionFailed => true
  | .workflowExecutionTimedOut => true
  | .workflowExecutionCanceled => true
  | .workflowExecutionTerminated => true
  | .workflowExecutionContinuedAsNew => true
  | _ => false

/-- The `while let Some(event) = history.next()` scan loop of
`new_from_history`, with the peeked lookahead recovered as the head of the
remaining list.  The mutable loop state (`events` accumulator,
`workflow_task_started_event_id`, `wf_task_count`) is threaded explicitly.
Branches appear in the source's evaluation order: the WorkflowTaskStarted
block first (whose close path may return or bail before the bottom
end-of-history block runs), then the end-of-history block. -/
def histLoop (is_all_hist : Bool) (to_wf_task_num : Option Nat) (wf_type : String)
    (acc : List HistoryEvent) (workflow_task_started_event_id : Int)
    (wf_task_count : Nat) : List HistoryEvent → Except HistErr HistoryInfo
  | [] => .error .unreachableState
  | event :: rest =>
    match rest with
    | next_event :: tl =>
      if event.event_type = .workflowTaskStarted then
        if next_event.event_type = .workflowTaskCompleted then
          -- close: prev := old started id, started id := this event's id
          if event.event_id = workflow_task_started_event_id then
            .error .duplicateStartedId
          else if to_wf_task_num = some (wf_task_count + 1) then
            .ok ⟨workflow_task_started_event_id, event.event_id,
                 acc ++ [event], wf_task_count + 1, wf_type⟩
          else
            histLoop is_all_hist to_wf_task_num wf_type (acc ++ [event])
              event.event_id (wf_task_count + 1) (next_event :: tl)
        else if next_event.event_type = .workflowTaskFailed ∨
            next_event.event_type = .workflowTaskTimedOut then
          -- retried task: scan on without closing
          histLoop is_all_hist to_wf_task_num wf_type (acc ++ [event])
            workflow_task_started_event_id wf_task_count (next_event :: tl)
        else
          .error .unexpectedEventAfterTaskStarted
      else
        histLoop is_all_hist to_wf_task_num wf_type (acc ++ [event])
          workflow_task_started_event_id wf_task_count (next_event :: tl)
    | [] =>
      if event.event_type = .workflowTaskStarted then
        -- no lookahead: the close path returns unconditionally
        if event.event_id = workflow_task_started_event_id then
          .error .duplicateStartedId
        else
          .ok ⟨workflow_task_started_event_id, event.event_id,
               acc ++ [event], wf_task_count + 1, wf_type⟩
      else if isFinalWfExecutionEvent event = true ∨ is_all_hist = true then
        -- synthesized close at end of execution
        .ok ⟨workflow_task_started_event_id, workflow_task_started_event_id,
             acc ++ [event], wf_task_count, wf_type⟩
      else if workflow_task_started_event_id ≠ event.event_id then
        .error .unexpectedHistoryEnd
      else
        -- the loop would continue, but the iterator is exhausted: the `while`
        -- exits and the `unreachable!()` after it executes
        .error .unreachableState

/-- `HistoryInfo::new_from_history`: empty check, workflow-type extraction from
the first event's attributes, then the scan loop from the initial state. -/
def newFromHistory (h : History) (to_wf_task_num : Option Nat) :
    Except HistErr HistoryInfo :=
  match h.events with
  | [] => .error .emptyHistory
  | e0 :: _ =>
    match e0.attributes with
    | some (.workflowExecutionStartedEventAttributes attrs) =>
      match attrs.workflow_type with
      | some wt => histLoop to_wf_task_num.isNone to_wf_task_num wt.name [] 0 0 h.events
      | none => .error .missingWorkflowType
    | _ => .error .malformedFirstEvent

/-- Index of the last WorkflowTaskCompleted event
(`events.iter().rposition(|he| he.event_type() == WorkflowTaskCompleted)`). -/
def lastCompletedIx : List HistoryEvent → Option Nat
  | [] => none
  | e :: rest =>
    match lastCompletedIx rest with
    | some i => some (i + 1)
    | none =>
      if e.event_type = .workflowTaskCompleted then some 0 else none

/-- `HistoryInfo::make_incremental`: drain events `0..=ix` where `ix` is the
last WorkflowTaskCompleted position; the `.expect` panic when no such event
exists is `none`. -/
def makeIncremental (hi : HistoryInfo) : Option HistoryInfo :=
  match lastCompletedIx hi.events with
  | none => none
  | some ix => some { hi with events := hi.events.drop (ix + 1) }

/-- `HistoryInfo::orig_run_id`: reads `events[0]`'s WorkflowExecutionStarted
attributes; both panics (empty index, wrong attribute variant) are `none`. -/
def origRunId (hi : HistoryInfo) : Option String :=
  match hi.events with
  | [] => none
  | e :: _ =>
    match e.attributes with
    | some (.workflowExecutionStartedEventAttributes wes) =>
      some wes.original_execution_run_id
    | _ => none

/-- `impl From<HistoryInfo> for History`. -/
def historyFrom (i : HistoryInfo) : History :=
  { events := i.events }

/-- `workflowservice::v1::GetWorkflowExecutionHistoryResponse`, restricted to
the one field the conversion populates (the rest are `Default::default()`). -/
structure GetWorkflowExecutionHistoryResponse where
  history : Option History
  deriving DecidableEq, Repr

/-- `impl From<HistoryInfo> for GetWorkflowExecutionHistoryResponse`. -/
def getWorkflowExecutionHistoryResponseFrom (i : HistoryInfo) :
    GetWorkflowExecutionHistoryResponse :=
  { history := some (historyFrom i) }

/-- Spec invariant 1 as a decidable check: the first event exists and carries
WorkflowExecutionStarted attributes with a workflow type name. -/
def headIsWesWithType (l : List HistoryEvent) : Bool :=
  match l with
  | [] => false
  | e :: _ =>
    match e.attributes with
    | some (.workflowExecutionStartedEventAttributes a) => a.workflow_type.isSome
    | _ => false

/-! ### Concrete histories used by witnesses and counterexamples

`sampleHist` is the single-timer history of the module's own tests:
Started(1), TaskScheduled(2), TaskStarted(3), TaskCompleted(4),
TimerStarted(5), TimerFired(6), TaskScheduled(7), TaskStarted(8). -/

/-- An event with no attributes. -/
def mkEv (i : Int) (t : EventType) : HistoryEvent := ⟨i, t, none⟩

/-- A WorkflowExecutionStarted event with type name "wf" and run id "run1". -/
def startEv : HistoryEvent :=
  ⟨1, .workflowExecutionStarted,
   some (.workflowExecutionStartedEventAttributes ⟨some ⟨"wf"⟩, "run1"⟩)⟩

/-- The single-timer history from the module's tests. -/
def sampleHist : History :=
  ⟨[startEv, mkEv 2 .workflowTaskScheduled, mkEv 3 .workflowTaskStarted,
    mkEv 4 .workflowTaskCompleted, mkEv 5 .timerStarted, mkEv 6 .timerFired,
    mkEv 7 .workflowTaskScheduled, mkEv 8 .workflowTaskStarted]⟩

/-- Construction of `sampleHist` truncated to workflow task 1. -/
def sampleHi1 : HistoryInfo :=
  ⟨0, 3, [startEv, mkEv 2 .workflowTaskScheduled, mkEv 3 .workflowTaskStarted],
   1, "wf"⟩

/-- Construction of `sampleHist` with the whole history retained. -/
def sampleHiFull : HistoryInfo :=
  ⟨3, 8, sampleHist.events, 2, "wf"⟩

/-- A history with one closed task whose WorkflowTaskCompleted is the last
event. -/
def endsCompletedHist : History :=
  ⟨[startEv, mkEv 2 .workflowTaskScheduled, mkEv 3 .workflowTaskStarted,
    mkEv 4 .workflowTaskCompleted]⟩

/-- Full-history construction of `endsCompletedHist`. -/
def endsCompletedHi : HistoryInfo :=
  ⟨3, 3, endsCompletedHist.events, 1, "wf"⟩

/-- A history with two closed tasks and a terminal execution event. -/
def twoTaskTerminalHist : History :=
  ⟨[startEv, mkEv 2 .workflowTaskScheduled, mkEv 3 .workflowTaskStarted,
    mkEv 4 .workflowTaskCompleted, mkEv 5 .workflowTaskScheduled,
    mkEv 6 .workflowTaskStarted, mkEv 7 .workflowTaskCompleted,
    mkEv 8 .workflowExecutionCompleted]⟩

/-- Full-history construction of `twoTaskTerminalHist`: the synthesized
terminal close sets both started-id markers to 6. -/
def twoTaskTerminalHi : HistoryInfo :=
  ⟨6, 6, twoTaskTerminalHist.events, 2, "wf"⟩

/-- A structurally invalid history: TaskStarted(2) followed by
TimerStarted(3). -/
def badSuccessorHist : History :=
  ⟨[startEv, mkEv 2 .workflowTaskStarted, mkEv 3 .timerStarted]⟩

/-- A history with one closed task, a timer, and a terminal execution
event. -/
def terminalHist : History :=
  ⟨[startEv, mkEv 2 .workflowTaskScheduled, mkEv 3 .workflowTaskStarted,
    mkEv 4 .workflowTaskCompleted, mkEv 5 .timerStarted, mkEv 6 .timerFired,
    mkEv 7 .workflowExecutionCompleted]⟩

/-! ### Pure scan-state functions over a decomposed input

While the loop scans `pre ++ s :: rest`, each element of `pre` sees as
lookahead the next element of `pre`, or `s` for the last one.  The functions
below compute, purely, the state the loop holds when it arrives at `s`. -/

/-- Number of tasks closed while scanning `pre`, where `s` follows `pre`. -/
def closesCnt (s : HistoryEvent) : List HistoryEvent → Nat
  | [] => 0
  | e :: rest =>
    (if e.event_type = EventType.workflowTaskStarted ∧
        (rest.headD s).event_type = EventType.workflowTaskCompleted
     then 1 else 0) + closesCnt s rest

/-- The current started-id marker after scanning `pre` from marker `w`, where
`s` follows `pre`. -/
def closesW (s : HistoryEvent) (w : Int) : List HistoryEvent → Int
  | [] => w
  | e :: rest =>
    closesW s
      (if e.event_type = EventType.workflowTaskStarted ∧
          (rest.headD s).event_type = EventType.workflowTaskCompleted
       then e.event_id else w) rest

/-- Decides that scanning `pre` (with `s` following) neither returns nor
fails: every WorkflowTaskStarted there is closed by a Completed lookahead
without tripping the duplicate-id bail or the truncation target, or is
retried via Failed/TimedOut. -/
def noExitB (to_wf_task_num : Option Nat) (w : Int) (c : Nat) (s : HistoryEvent) :
    List HistoryEvent → Bool
  | [] => true
  | e :: rest =>
    if e.event_type = EventType.workflowTaskStarted then
      if (rest.headD s).event_type = EventType.workflowTaskCompleted then
        decide (¬ e.event_id = w) && decide (¬ to_wf_task_num = some (c + 1)) &&
          noExitB to_wf_task_num e.event_id (c + 1) s rest
      else
        (decide ((rest.headD s).event_type = EventType.workflowTaskFailed) ||
         decide ((rest.headD s).event_type = EventType.workflowTaskTimedOut)) &&
          noExitB to_wf_task_num w c s rest
    else
      noExitB to_wf_task_num w c s rest

/-- Every WorkflowTaskStarted event in the list, except a trailing one, is
immediately followed by Completed, Failed, or TimedOut. -/
def validSuccessors : List HistoryEvent → Bool
  | e :: ne :: rest =>
    (if e.event_type = EventType.workflowTaskStarted then
       decide (ne.event_type = EventType.workflowTaskCompleted) ||
       decide (ne.event_type = EventType.workflowTaskFailed) ||
       decide (ne.event_type = EventType.workflowTaskTimedOut)
     else true) && validSuccessors (ne :: rest)
  | _ => true

/-! ### Step lemmas for the scan loop -/

/-- Scanning a non-WorkflowTaskStarted event with more events to come just
accumulates it. -/
theorem histLoop_cons_nonstart {is_all_hist : Bool} {to_wf_task_num : Option Nat}
    {wf_type : String} {acc : List HistoryEvent} {w : Int} {c : Nat}
    {e : HistoryEvent} {l : List HistoryEvent} (hl : l ≠ [])
    (he : ¬ e.event_type = EventType.workflowTaskStarted) :
    histLoop is_all_hist to_wf_task_num wf_type acc w c (e :: l)
      = histLoop is_all_hist to_wf_task_num wf_type (acc ++ [e]) w c l := by
  cases l with
  | nil => exact absurd rfl hl
  | cons x xs => simp [histLoop, he]

/-- Scanning a WorkflowTaskStarted whose lookahead is Failed or TimedOut
continues without closing the task. -/
theorem histLoop_cons_retry {is_all_hist : Bool} {to_wf_task_num : Option Nat}
    {wf_type : String} {acc : List HistoryEvent} {w : Int} {c : Nat}
    {e ne : HistoryEvent} {l : List HistoryEvent} (hl : l.head? = some ne)
    (he : e.event_type = EventType.workflowTaskStarted)
    (hne : ne.event_type = EventType.workflowTaskFailed ∨
      ne.event_type = EventType.workflowTaskTimedOut) :
    histLoop is_all_hist to_wf_task_num wf_type acc w c (e :: l)
      = histLoop is_all_hist to_wf_task_num wf_type (acc ++ [e]) w c l := by
  have hnc : ¬ ne.event_type = EventType.workflowTaskCompleted := by
    rcases hne with h | h <;> simp [h]
  cases l with
  | nil => simp at hl
  | cons x xs =>
    have hx : x = ne := by simpa using hl
    subst hx
    simp [histLoop, he, hnc, hne]

/-- Scanning a closing WorkflowTaskStarted (lookahead Completed) that is not
the truncation point updates the two started-id markers and the count. -/
theorem histLoop_cons_close_step {is_all_hist : Bool} {to_wf_task_num : Option Nat}
    {wf_type : String} {acc : List HistoryEvent} {w : Int} {c : Nat}
    {e ne : HistoryEvent} {l : List HistoryEvent} (hl : l.head? = some ne)
    (he : e.event_type = EventType.workflowTaskStarted)
    (hne : ne.event_type = EventType.workflowTaskCompleted)
    (hid : ¬ e.event_id = w) (hto : ¬ to_wf_task_num = some (c + 1)) :
    histLoop is_all_hist to_wf_task_num wf_type acc w c (e :: l)
      = histLoop is_all_hist to_wf_task_num wf_type (acc ++ [e]) e.event_id (c + 1) l := by
  cases l with
  | nil => simp at hl
  | cons x xs =>
    have hx : x = ne := by simpa using hl
    subst hx
    simp [histLoop, he, hne, hid, hto]

/-- Scanning a closing WorkflowTaskStarted at the truncation point returns the
accumulated structure. -/
theorem histLoop_cons_close_ret {is_all_hist : Bool} {to_wf_task_num : Option Nat}
    {wf_type : String} {acc : List HistoryEvent} {w : Int} {c : Nat}
    {e ne : HistoryEvent} {l : List HistoryEvent} (hl : l.head? = some ne)
    (he : e.event_type = EventType.workflowTaskStarted)
    (hne : ne.event_type = EventType.workflowTaskCompleted)
    (hid : ¬ e.event_id = w) (hto : to_wf_task_num = some (c + 1)) :
    histLoop is_all_hist to_wf_task_num wf_type acc w c (e :: l)
      = .ok ⟨w, e.event_id, acc ++ [e], c + 1, wf_type⟩ := by
  cases l with
  | nil => simp at hl
  | cons x xs =>
    have hx : x = ne := by simpa using hl
    subst hx
    simp [histLoop, he, hne, hid, hto]

/-- A WorkflowTaskStarted followed by anything other than
Completed/Failed/TimedOut fails the scan. -/
theorem histLoop_cons_badsucc {is_all_hist : Bool} {to_wf_task_num : Option Nat}
    {wf_type : String} {acc : List HistoryEvent} {w : Int} {c : Nat}
    {e ne : HistoryEvent} {l : List HistoryEvent} (hl : l.head? = some ne)
    (he : e.event_type = EventType.workflowTaskStarted)
    (h1 : ¬ ne.event_type = EventType.workflowTaskCompleted)
    (h2 : ¬ ne.event_type = EventType.workflowTaskFailed)
    (h3 : ¬ ne.event_type = EventType.workflowTaskTimedOut) :
    histLoop is_all_hist to_wf_task_num wf_type acc w c (e :: l)
      = .error .unexpectedEventAfterTaskStarted := by
  cases l with
  | nil => simp at hl
  | cons x xs =>
    have hx : x = ne := by simpa using hl
    subst hx
    simp [histLoop, he, h1, h2, h3]

/-- A WorkflowTaskStarted with no lookahead closes and returns. -/
theorem histLoop_single_start {is_all_hist : Bool} {to_wf_task_num : Option Nat}
    {wf_type : String} {acc : List HistoryEvent} {w : Int} {c : Nat}
    {e : HistoryEvent} (he : e.event_type = EventType.workflowTaskStarted)
    (hid : ¬ e.event_id = w) :
    histLoop is_all_hist to_wf_task_num wf_type acc w c [e]
      = .ok ⟨w, e.event_id, acc ++ [e], c + 1, wf_type⟩ := by
  simp [histLoop, he, hid]

/-- A final (or full-history) last event synthesizes a close: both started-id
markers take the current value. -/
theorem histLoop_single_final {is_all_hist : Bool} {to_wf_task_num : Option Nat}
    {wf_type : String} {acc : List HistoryEvent} {w : Int} {c : Nat}
    {e : HistoryEvent} (he : ¬ e.event_type = EventType.workflowTaskStarted)
    (hfin : isFinalWfExecutionEvent e = true ∨ is_all_hist = true) :
    histLoop is_all_hist to_wf_task_num wf_type acc w c [e]
      = .ok ⟨w, w, acc ++ [e], c, wf_type⟩ := by
  simp [histLoop, he, hfin]

/-! ### Structural lemmas about successful scans -/

/-- Whatever the loop returns successfully retains the accumulator followed by
a non-empty prefix of the events still to scan. -/
theorem histLoop_ok_events {is_all_hist : Bool} {to_wf_task_num : Option Nat}
    {wf_type : String} :
    ∀ (l acc : List HistoryEvent) (w : Int) (c : Nat) (hi : HistoryInfo),
      histLoop is_all_hist to_wf_task_num wf_type acc w c l = .ok hi →
      ∃ p t, l = p ++ t ∧ p ≠ [] ∧ hi.events = acc ++ p := by
  intro l
  induction l with
  | nil => intro acc w c hi h; simp [histLoop] at h
  | cons e rest ih =>
    intro acc w c hi h
    cases rest with
    | nil =>
      by_cases he : e.event_type = EventType.workflowTaskStarted
      · by_cases hid : e.event_id = w
        · simp [histLoop, he, hid] at h
        · rw [histLoop_single_start he hid] at h
          injection h with h
          subst h
          exact ⟨[e], [], by simp, by simp, by simp⟩
      · by_cases hfin : isFinalWfExecutionEvent e = true ∨ is_all_hist = true
        · rw [histLoop_single_final he hfin] at h
          injection h with h
          subst h
          exact ⟨[e], [], by simp, by simp, by simp⟩
        · by_cases hw : w = e.event_id
          · simp [histLoop, he, hfin, hw] at h
          · simp [histLoop, he, hfin, hw] at h
    | cons x xs =>
      by_cases he : e.event_type = EventType.workflowTaskStarted
      · by_cases hC : x.event_type = EventType.workflowTaskCompleted
        · by_cases hid : e.event_id = w
          · simp [histLoop, he, hC, hid] at h
          · by_cases hto : to_wf_task_num = some (c + 1)
            · rw [histLoop_cons_close_ret List.head?_cons he hC hid hto] at h
              injection h with h
              subst h
              exact ⟨[e], x :: xs, by simp, by simp, by simp⟩
            · rw [histLoop_cons_close_step List.head?_cons he hC hid hto] at h
              obtain ⟨p, t, hpt, hpne, hev⟩ :=
                ih (acc ++ [e]) e.event_id (c + 1) hi h
              exact ⟨e :: p, t, by simp [hpt], by simp, by simp [hev]⟩
        · by_cases hFT : x.event_type = EventType.workflowTaskFailed ∨
              x.event_type = EventType.workflowTaskTimedOut
          · rw [histLoop_cons_retry List.head?_cons he hFT] at h
            obtain ⟨p, t, hpt, hpne, hev⟩ := ih (acc ++ [e]) w c hi h
            exact ⟨e :: p, t, by simp [hpt], by simp, by simp [hev]⟩
          · push_neg at hFT
            rw [histLoop_cons_badsucc List.head?_cons he hC hFT.1 hFT.2] at h
            exact absurd h (by simp)
      · rw [histLoop_cons_nonstart (by simp) he] at h
        obtain ⟨p, t, hpt, hpne, hev⟩ := ih (acc ++ [e]) w c hi h
        exact ⟨e :: p, t, by simp [hpt], by simp, by simp [hev]⟩

/-- On every successful return the retained events end in some event `s`, and
either `s` is a WorkflowTaskStarted that just closed (so the current marker is
its id and differs from the previous marker), or the return was the
synthesized terminal close (so the two markers are equal). -/
theorem histLoop_ok_last {is_all_hist : Bool} {to_wf_task_num : Option Nat}
    {wf_type : String} :
    ∀ (l acc : List HistoryEvent) (w : Int) (c : Nat) (hi : HistoryInfo),
      histLoop is_all_hist to_wf_task_num wf_type acc w c l = .ok hi →
      ∃ s, hi.events.getLast? = some s ∧
        ((s.event_type = EventType.workflowTaskStarted ∧
          hi.workflow_task_started_event_id = s.event_id ∧
          hi.previous_started_event_id ≠ s.event_id) ∨
         (¬ s.event_type = EventType.workflowTaskStarted ∧
          hi.previous_started_event_id = hi.workflow_task_started_event_id)) := by
  intro l
  induction l with
  | nil => intro acc w c hi h; simp [histLoop] at h
  | cons e rest ih =>
    intro acc w c hi h
    cases rest with
    | nil =>
      by_cases he : e.event_type = EventType.workflowTaskStarted
      · by_cases hid : e.event_id = w
        · simp [histLoop, he, hid] at h
        · rw [histLoop_single_start he hid] at h
          injection h with h
          subst h
          exact ⟨e, by simp [List.getLast?_concat],
            Or.inl ⟨he, rfl, fun hc => hid hc.symm⟩⟩
      · by_cases hfin : isFinalWfExecutionEvent e = true ∨ is_all_hist = true
        · rw [histLoop_single_final he hfin] at h
          injection h with h
          subst h
          exact ⟨e, by simp [List.getLast?_concat], Or.inr ⟨he, rfl⟩⟩
        · by_cases hw : w = e.event_id
          · simp [histLoop, he, hfin, hw] at h
          · simp [histLoop, he, hfin, hw] at h
    | cons x xs =>
      by_cases he : e.event_type = EventType.workflowTaskStarted
      · by_cases hC : x.event_type = EventType.workflowTaskCompleted
        · by_cases hid : e.event_id = w
          · simp [histLoop, he, hC, hid] at h
          · by_cases hto : to_wf_task_num = some (c + 1)
            · rw [histLoop_cons_close_ret List.head?_cons he hC hid hto] at h
              injection h with h
              subst h
              exact ⟨e, by simp [List.getLast?_concat],
                Or.inl ⟨he, rfl, fun hc => hid hc.symm⟩⟩
            · rw [histLoop_cons_close_step List.head?_cons he hC hid hto] at h
              exact ih (acc ++ [e]) e.event_id (c + 1) hi h
        · by_cases hFT : x.event_type = EventType.workflowTaskFailed ∨
              x.event_type = EventType.workflowTaskTimedOut
          · rw [histLoop_cons_retry List.head?_cons he hFT] at h
            exact ih (acc ++ [e]) w c hi h
          · push_neg at hFT
            rw [histLoop_cons_badsucc List.head?_cons he hC hFT.1 hFT.2] at h
            exact absurd h (by simp)
      · rw [histLoop_cons_nonstart (by simp) he] at h
        exact ih (acc ++ [e]) w c hi h

/-- Under strictly ascending event ids that dominate the current marker, a
successful return whose last retained event is a WorkflowTaskStarted has a
strictly smaller previous marker. -/
theorem histLoop_ok_lt {is_all_hist : Bool} {to_wf_task_num : Option Nat}
    {wf_type : String} :
    ∀ (l acc : List HistoryEvent) (w : Int) (c : Nat) (hi : HistoryInfo),
      (∀ x ∈ l, w < x.event_id) →
      List.Pairwise (fun a b => a.event_id < b.event_id) l →
      histLoop is_all_hist to_wf_task_num wf_type acc w c l = .ok hi →
      ∀ s, hi.events.getLast? = some s →
        s.event_type = EventType.workflowTaskStarted →
        hi.previous_started_event_id < hi.workflow_task_started_event_id := by
  intro l
  induction l with
  | nil => intro acc w c hi _ _ h; simp [histLoop] at h
  | cons e rest ih =>
    intro acc w c hi hlt hpw h s hs hstype
    cases rest with
    | nil =>
      by_cases he : e.event_type = EventType.workflowTaskStarted
      · by_cases hid : e.event_id = w
        · simp [histLoop, he, hid] at h
        · rw [histLoop_single_start he hid] at h
          injection h with h
          subst h
          exact hlt e (by simp)
      · by_cases hfin : isFinalWfExecutionEvent e = true ∨ is_all_hist = true
        · rw [histLoop_single_final he hfin] at h
          injection h with h
          subst h
          simp [List.getLast?_concat] at hs
          subst hs
          exact absurd hstype he
        · by_cases hw : w = e.event_id
          · simp [histLoop, he, hfin, hw] at h
          · simp [histLoop, he, hfin, hw] at h
    | cons x xs =>
      by_cases he : e.event_type = EventType.workflowTaskStarted
      · by_cases hC : x.event_type = EventType.workflowTaskCompleted
        · by_cases hid : e.event_id = w
          · simp [histLoop, he, hC, hid] at h
          · by_cases hto : to_wf_task_num = some (c + 1)
            · rw [histLoop_cons_close_ret List.head?_cons he hC hid hto] at h
              injection h with h
              subst h
              exact hlt e (by simp)
            · rw [histLoop_cons_close_step List.head?_cons he hC hid hto] at h
              refine ih (acc ++ [e]) e.event_id (c + 1) hi ?_ hpw.tail h s hs hstype
              intro y hy
              exact (List.pairwise_cons.mp hpw).1 y hy
        · by_cases hFT : x.event_type = EventType.workflowTaskFailed ∨
              x.event_type = EventType.workflowTaskTimedOut
          · rw [histLoop_cons_retry List.head?_cons he hFT] at h
            refine ih (acc ++ [e]) w c hi ?_ hpw.tail h s hs hstype
            intro y hy
            exact hlt y (List.mem_cons_of_mem e hy)
          · push_neg at hFT
            rw [histLoop_cons_badsucc List.head?_cons he hC hFT.1 hFT.2] at h
            exact absurd h (by simp)
      · rw [histLoop_cons_nonstart (by simp) he] at h
        refine ih (acc ++ [e]) w c hi ?_ hpw.tail h s hs hstype
        intro y hy
        exact hlt y (List.mem_cons_of_mem e hy)

/-- Under strictly ascending event ids that dominate the current marker, the
scan never falls off the end of the loop: the `unreachable!()` state is not
produced. -/
theorem histLoop_ne_unreachable {is_all_hist : Bool} {to_wf_task_num : Option Nat}
    {wf_type : String} :
    ∀ (l acc : List HistoryEvent) (w : Int) (c : Nat),
      (∀ x ∈ l, w < x.event_id) →
      List.Pairwise (fun a b => a.event_id < b.event_id) l →
      l ≠ [] →
      histLoop is_all_hist to_wf_task_num wf_type acc w c l
        ≠ .error .unreachableState := by
  intro l
  induction l with
  | nil => intro acc w c _ _ hne; exact absurd rfl hne
  | cons e rest ih =>
    intro acc w c hlt hpw _
    cases rest with
    | nil =>
      by_cases he : e.event_type = EventType.workflowTaskStarted
      · by_cases hid : e.event_id = w
        · exact absurd hid.symm (ne_of_lt (hlt e (by simp)))
        · rw [histLoop_single_start he hid]; simp
      · by_cases hfin : isFinalWfExecutionEvent e = true ∨ is_all_hist = true
        · rw [histLoop_single_final he hfin]; simp
        · have hw : w ≠ e.event_id := ne_of_lt (hlt e (by simp))
          simp [histLoop, he, hfin, hw]
    | cons x xs =>
      by_cases he : e.event_type = EventType.workflowTaskStarted
      · by_cases hC : x.event_type = EventType.workflowTaskCompleted
        · by_cases hid : e.event_id = w
          · exact absurd hid.symm (ne_of_lt (hlt e (by simp)))
          · by_cases hto : to_wf_task_num = some (c + 1)
            · rw [histLoop_cons_close_ret List.head?_cons he hC hid hto]; simp
            · rw [histLoop_cons_close_step List.head?_cons he hC hid hto]
              refine ih (acc ++ [e]) e.event_id (c + 1) ?_ hpw.tail (by simp)
              intro y hy
              exact (List.pairwise_cons.mp hpw).1 y hy
        · by_cases hFT : x.event_type = EventType.workflowTaskFailed ∨
              x.event_type = EventType.workflowTaskTimedOut
          · rw [histLoop_cons_retry List.head?_cons he hFT]
            refine ih (acc ++ [e]) w c ?_ hpw.tail (by simp)
            intro y hy
            exact hlt y (List.mem_cons_of_mem e hy)
          · push_neg at hFT
            rw [histLoop_cons_badsucc List.head?_cons he hC hFT.1 hFT.2]; simp
      · rw [histLoop_cons_nonstart (by simp) he]
        refine ih (acc ++ [e]) w c ?_ hpw.tail (by simp)
        intro y hy
        exact hlt y (List.mem_cons_of_mem e hy)

theorem head?_append_cons (l : List HistoryEvent) (s : HistoryEvent)
    (r : List HistoryEvent) : (l ++ s :: r).head? = some (l.headD s) := by
  cases l <;> simp

theorem validSuccessors_cons {e ne : HistoryEvent} {l : List HistoryEvent}
    (hl : l.head? = some ne) :
    validSuccessors (e :: l) =
      ((if e.event_type = EventType.workflowTaskStarted then
          decide (ne.event_type = EventType.workflowTaskCompleted) ||
          decide (ne.event_type = EventType.workflowTaskFailed) ||
          decide (ne.event_type = EventType.workflowTaskTimedOut)
        else true) && validSuccessors l) := by
  cases l with
  | nil => simp at hl
  | cons x xs =>
    have hx : x = ne := by simpa using hl
    subst hx
    rfl

/-- The marker computed over a prefix stays below any bound dominating the
initial marker and every id in the prefix. -/
theorem closesW_lt {b : Int} :
    ∀ (pre : List HistoryEvent) (s : HistoryEvent) (w : Int),
      (∀ x ∈ pre, x.event_id < b) → w < b → closesW s w pre < b := by
  intro pre
  induction pre with
  | nil => intro s w _ hw; simpa [closesW] using hw
  | cons e pre' ih =>
    intro s w hids hw
    rw [closesW]
    by_cases hcl : e.event_type = EventType.workflowTaskStarted ∧
        (pre'.headD s).event_type = EventType.workflowTaskCompleted
    · rw [if_pos hcl]
      exact ih s e.event_id (fun x hx => hids x (List.mem_cons_of_mem e hx))
        (hids e (by simp))
    · rw [if_neg hcl]
      exact ih s w (fun x hx => hids x (List.mem_cons_of_mem e hx)) hw

/-- A scan over a no-exit prefix factors into the pure state functions. -/
theorem histLoop_factor {is_all_hist : Bool} {to_wf_task_num : Option Nat}
    {wf_type : String} :
    ∀ (pre : List HistoryEvent) (s : HistoryEvent) (rest acc : List HistoryEvent)
      (w : Int) (c : Nat),
      noExitB to_wf_task_num w c s pre = true →
      histLoop is_all_hist to_wf_task_num wf_type acc w c (pre ++ s :: rest)
        = histLoop is_all_hist to_wf_task_num wf_type (acc ++ pre)
            (closesW s w pre) (c + closesCnt s pre) (s :: rest) := by
  intro pre
  induction pre with
  | nil => intro s rest acc w c _; simp [closesW, closesCnt]
  | cons e pre' ih =>
    intro s rest acc w c hne
    have hhd : (pre' ++ s :: rest).head? = some (pre'.headD s) :=
      head?_append_cons pre' s rest
    have heq : (e :: pre') ++ s :: rest = e :: (pre' ++ s :: rest) := rfl
    by_cases he : e.event_type = EventType.workflowTaskStarted
    · by_cases hC : (pre'.headD s).event_type = EventType.workflowTaskCompleted
      · simp only [noExitB, he, if_true, hC, Bool.and_eq_true,
          decide_eq_true_eq] at hne
        obtain ⟨⟨hid, hto⟩, hrec⟩ := hne
        rw [heq, histLoop_cons_close_step hhd he hC hid hto,
          ih s rest (acc ++ [e]) e.event_id (c + 1) hrec]
        have h1 : acc ++ e :: pre' = (acc ++ [e]) ++ pre' := by simp
        have h2 : closesW s w (e :: pre') = closesW s e.event_id pre' := by
          rw [closesW, if_pos ⟨he, hC⟩]
        have h3 : c + closesCnt s (e :: pre') = (c + 1) + closesCnt s pre' := by
          rw [closesCnt, if_pos ⟨he, hC⟩]
          omega
        rw [h1, h2, h3]
      · simp only [noExitB, he, if_true, hC, if_false, Bool.and_eq_true,
          Bool.or_eq_true, decide_eq_true_eq] at hne
        obtain ⟨hFT, hrec⟩ := hne
        rw [heq, histLoop_cons_retry hhd he hFT, ih s rest (acc ++ [e]) w c hrec]
        have h1 : acc ++ e :: pre' = (acc ++ [e]) ++ pre' := by simp
        have h2 : closesW s w (e :: pre') = closesW s w pre' := by
          rw [closesW, if_neg (fun hand => hC hand.2)]
        have h3 : c + closesCnt s (e :: pre') = c + closesCnt s pre' := by
          rw [closesCnt, if_neg (fun hand => hC hand.2)]
          omega
        rw [h1, h2, h3]
    · simp only [noExitB, he, if_false] at hne
      rw [heq, histLoop_cons_nonstart (by simp) he, ih s rest (acc ++ [e]) w c hne]
      have h1 : acc ++ e :: pre' = (acc ++ [e]) ++ pre' := by simp
      have h2 : closesW s w (e :: pre') = closesW s w pre' := by
        rw [closesW, if_neg (fun hand => he hand.1)]
      have h3 : c + closesCnt s (e :: pre') = c + closesCnt s pre' := by
        rw [closesCnt, if_neg (fun hand => he hand.1)]
        omega
      rw [h1, h2, h3]

/-- Structural validity plus ascending dominated ids plus an unreached
truncation target imply the scan does not exit inside the prefix. -/
theorem noExitB_of_wf {to_wf_task_num : Option Nat} :
    ∀ (pre : List HistoryEvent) (s : HistoryEvent) (w : Int) (c : Nat),
      validSuccessors (pre ++ [s]) = true →
      (∀ x ∈ pre, w < x.event_id) →
      List.Pairwise (fun a b => a.event_id < b.event_id) pre →
      (∀ k, to_wf_task_num = some k → c + closesCnt s pre < k) →
      noExitB to_wf_task_num w c s pre = true := by
  intro pre
  induction pre with
  | nil => intro s w c _ _ _ _; rfl
  | cons e pre' ih =>
    intro s w c hvs hlt hpw htr
    have hhd : (pre' ++ [s]).head? = some (pre'.headD s) :=
      head?_append_cons pre' s []
    have hvs' : ((if e.event_type = EventType.workflowTaskStarted then
          decide ((pre'.headD s).event_type = EventType.workflowTaskCompleted) ||
          decide ((pre'.headD s).event_type = EventType.workflowTaskFailed) ||
          decide ((pre'.headD s).event_type = EventType.workflowTaskTimedOut)
        else true) && validSuccessors (pre' ++ [s])) = true := by
      rw [← validSuccessors_cons hhd]
      exact hvs
    rw [Bool.and_eq_true] at hvs'
    obtain ⟨hsucc, hvsrest⟩ := hvs'
    by_cases he : e.event_type = EventType.workflowTaskStarted
    · by_cases hC : (pre'.headD s).event_type = EventType.workflowTaskCompleted
      · rw [noExitB, if_pos he, if_pos hC]
        have hid : ¬ e.event_id = w := fun hc => absurd hc.symm
          (ne_of_lt (hlt e (by simp)))
        have hto : ¬ to_wf_task_num = some (c + 1) := by
          intro hk
          have := htr (c + 1) hk
          rw [closesCnt, if_pos ⟨he, hC⟩] at this
          omega
        have hrec : noExitB to_wf_task_num e.event_id (c + 1) s pre' = true := by
          refine ih s e.event_id (c + 1) hvsrest ?_ hpw.tail ?_
          · intro y hy
            exact (List.pairwise_cons.mp hpw).1 y hy
          · intro k hk
            have := htr k hk
            rw [closesCnt, if_pos ⟨he, hC⟩] at this
            omega
        simp only [Bool.and_eq_true, decide_eq_true_eq]
        exact ⟨⟨hid, hto⟩, hrec⟩
      · rw [noExitB, if_pos he, if_neg hC]
        have hFT : (decide ((pre'.headD s).event_type = EventType.workflowTaskFailed) ||
            decide ((pre'.headD s).event_type = EventType.workflowTaskTimedOut)) = true := by
          rw [if_pos he] at hsucc
          simp only [Bool.or_eq_true, decide_eq_true_eq] at hsucc ⊢
          rcases hsucc with (h | h) | h
          · exact absurd h hC
          · exact Or.inl h
          · exact Or.inr h
        have hrec : noExitB to_wf_task_num w c s pre' = true := by
          refine ih s w c hvsrest ?_ hpw.tail ?_
          · intro y hy
            exact hlt y (List.mem_cons_of_mem e hy)
          · intro k hk
            have := htr k hk
            rw [closesCnt, if_neg (fun hand => hC hand.2)] at this
            omega
        rw [Bool.and_eq_true]
        exact ⟨hFT, hrec⟩
    · rw [noExitB, if_neg he]
      refine ih s w c hvsrest ?_ hpw.tail ?_
      · intro y hy
        exact hlt y (List.mem_cons_of_mem e hy)
      · intro k hk
        have := htr k hk
        rw [closesCnt, if_neg (fun hand => he hand.1)] at this
        omega

/-! ### Unfolding the constructor entry point -/

/-- Forward unfolding: with a well-formed first event, construction is the
scan loop started from the initial state. -/
theorem newFromHistory_eq_loop {h : History} {to_wf_task_num : Option Nat}
    {e0 : HistoryEvent} {tl : List HistoryEvent}
    {attrs : WorkflowExecutionStartedEventAttributes} {wt : WorkflowType}
    (hev : h.events = e0 :: tl)
    (hattr : e0.attributes = some (.workflowExecutionStartedEventAttributes attrs))
    (hwt : attrs.workflow_type = some wt) :
    newFromHistory h to_wf_task_num
      = histLoop to_wf_task_num.isNone to_wf_task_num wt.name [] 0 0 (e0 :: tl) := by
  unfold newFromHistory
  rw [hev]
  simp [hattr, hwt]

/-- Backward elimination: a successful construction means the first event was
well-formed and the scan loop succeeded. -/
theorem newFromHistory_ok_elim {h : History} {to_wf_task_num : Option Nat}
    {hi : HistoryInfo} (hok : newFromHistory h to_wf_task_num = .ok hi) :
    ∃ e0 tl attrs wt, h.events = e0 :: tl ∧
      e0.attributes = some (.workflowExecutionStartedEventAttributes attrs) ∧
      attrs.workflow_type = some wt ∧
      histLoop to_wf_task_num.isNone to_wf_task_num wt.name [] 0 0 (e0 :: tl)
        = .ok hi := by
  cases hev : h.events with
  | nil =>
    rw [newFromHistory, hev] at hok
    exact absurd hok (by simp)
  | cons e0 tl =>
    cases hattr : e0.attributes with
    | none =>
      rw [newFromHistory, hev] at hok
      simp [hattr] at hok
    | some a =>
      cases a with
      | otherAttributes =>
        rw [newFromHistory, hev] at hok
        simp [hattr] at hok
      | workflowExecutionStartedEventAttributes attrs =>
        cases hwt : attrs.workflow_type with
        | none =>
          rw [newFromHistory, hev] at hok
          simp [hattr, hwt] at hok
        | some wt =>
          refine ⟨e0, tl, attrs, wt, rfl, hattr, hwt, ?_⟩
          rw [newFromHistory, hev] at hok
          simpa [hattr, hwt] using hok

/-! ### Claims -/

/-- C8: converting a HistoryInfo into the plain History container, or into the
get-workflow-execution-history response shape, and extracting the wrapped raw
event sequence reproduces exactly the retained events, in order, with no loss
or duplication. -/
theorem claim_C8_roundtrip (hi : HistoryInfo) :
    (historyFrom hi).events = hi.events ∧
    ((getWorkflowExecutionHistoryResponseFrom hi).history).map History.events
      = some hi.events :=
  ⟨rfl, rfl⟩

/-- C6: make_incremental modifies only the events field; the two started-id
markers, the task count and the workflow type are unchanged. -/
theorem claim_C6_frame (hi hi' : HistoryInfo)
    (h : makeIncremental hi = some hi') :
    hi'.previous_started_event_id = hi.previous_started_event_id ∧
    hi'.workflow_task_started_event_id = hi.workflow_task_started_event_id ∧
    hi'.wf_task_count = hi.wf_task_count ∧
    hi'.wf_type = hi.wf_type := by
  unfold makeIncremental at h
  cases hix : lastCompletedIx hi.events with
  | none => rw [hix] at h; exact absurd h (by simp)
  | some ix =>
    rw [hix] at h
    injection h with h
    subst h
    exact ⟨rfl, rfl, rfl, rfl⟩

/-- Witness for C6 on the full single-timer history. -/
theorem claim_C6_witness :
    (⟨3, 8, [mkEv 5 .timerStarted, mkEv 6 .timerFired,
      mkEv 7 .workflowTaskScheduled, mkEv 8 .workflowTaskStarted],
      2, "wf"⟩ : HistoryInfo).previous_started_event_id
        = sampleHiFull.previous_started_event_id ∧
    (⟨3, 8, [mkEv 5 .timerStarted, mkEv 6 .timerFired,
      mkEv 7 .workflowTaskScheduled, mkEv 8 .workflowTaskStarted],
      2, "wf"⟩ : HistoryInfo).workflow_task_started_event_id
        = sampleHiFull.workflow_task_started_event_id ∧
    (⟨3, 8, [mkEv 5 .timerStarted, mkEv 6 .timerFired,
      mkEv 7 .workflowTaskScheduled, mkEv 8 .workflowTaskStarted],
      2, "wf"⟩ : HistoryInfo).wf_task_count = sampleHiFull.wf_task_count ∧
    (⟨3, 8, [mkEv 5 .timerStarted, mkEv 6 .timerFired,
      mkEv 7 .workflowTaskScheduled, mkEv 8 .workflowTaskStarted],
      2, "wf"⟩ : HistoryInfo).wf_type = sampleHiFull.wf_type :=
  claim_C6_frame sampleHiFull _ (by rfl)

theorem lastCompletedIx_eq_none {l : List HistoryEvent}
    (h : ∀ e ∈ l, ¬ e.event_type = EventType.workflowTaskCompleted) :
    lastCompletedIx l = none := by
  induction l with
  | nil => rfl
  | cons e rest ih =>
    rw [lastCompletedIx, ih (fun x hx => h x (List.mem_cons_of_mem e hx))]
    simp [h e (by simp)]

theorem lastCompletedIx_append {pre : List HistoryEvent} {cev : HistoryEvent}
    {post : List HistoryEvent}
    (hc : cev.event_type = EventType.workflowTaskCompleted)
    (hp : ∀ e ∈ post, ¬ e.event_type = EventType.workflowTaskCompleted) :
    lastCompletedIx (pre ++ cev :: post) = some pre.length := by
  induction pre with
  | nil =>
    rw [List.nil_append, lastCompletedIx, lastCompletedIx_eq_none hp]
    simp [hc]
  | cons e pre' ih =>
    rw [List.cons_append, lastCompletedIx, ih]
    simp

theorem drop_length_succ_append {pre : List HistoryEvent} {cev : HistoryEvent}
    {post : List HistoryEvent} :
    (pre ++ cev :: post).drop (pre.length + 1) = post := by
  induction pre with
  | nil => simp
  | cons e pre' ih => simp

/-- C5: make_incremental removes exactly the leading events up to and
including the last WorkflowTaskCompleted event (found from the end), leaving
events to begin right after that boundary; with no WorkflowTaskCompleted at
all it fails fatally (modelled as `none`) instead of silently succeeding. -/
theorem claim_C5_make_incremental (hi : HistoryInfo) :
    ((∀ e ∈ hi.events, ¬ e.event_type = EventType.workflowTaskCompleted) →
      makeIncremental hi = none) ∧
    (∀ (pre : List HistoryEvent) (cev : HistoryEvent) (post : List HistoryEvent),
      hi.events = pre ++ cev :: post →
      cev.event_type = EventType.workflowTaskCompleted →
      (∀ e ∈ post, ¬ e.event_type = EventType.workflowTaskCompleted) →
      makeIncremental hi = some ⟨hi.previous_started_event_id,
        hi.workflow_task_started_event_id, post, hi.wf_task_count, hi.wf_type⟩) := by
  constructor
  · intro hnone
    unfold makeIncremental
    rw [lastCompletedIx_eq_none hnone]
  · intro pre cev post hdec hc hp
    unfold makeIncremental
    rw [hdec, lastCompletedIx_append hc hp]
    simp [drop_length_succ_append]

/-- Witness for C5 on the full single-timer history: the last Completed is
event 4; the remainder starts at event 5. -/
theorem claim_C5_witness :
    makeIncremental sampleHiFull = some ⟨3, 8, [mkEv 5 .timerStarted,
      mkEv 6 .timerFired, mkEv 7 .workflowTaskScheduled,
      mkEv 8 .workflowTaskStarted], 2, "wf"⟩ :=
  (claim_C5_make_incremental sampleHiFull).2
    [startEv, mkEv 2 .workflowTaskScheduled, mkEv 3 .workflowTaskStarted]
    (mkEv 4 .workflowTaskCompleted)
    [mkEv 5 .timerStarted, mkEv 6 .timerFired, mkEv 7 .workflowTaskScheduled,
     mkEv 8 .workflowTaskStarted]
    rfl rfl (by decide)

/-- C10: for every successful construction, the retained events are exactly a
non-empty prefix of the input history's event sequence, in order, unmodified,
with no omission or duplication inside the prefix (stated as: the retained
events are what taking their own length off the front of the input gives). -/
theorem claim_C10_retained_events (h : History) (to_wf_task_num : Option Nat)
    (hi : HistoryInfo) (hok : newFromHistory h to_wf_task_num = .ok hi) :
    hi.events ≠ [] ∧ hi.events = h.events.take hi.events.length := by
  obtain ⟨e0, tl, attrs, wt, hev, hattr, hwt, hloop⟩ := newFromHistory_ok_elim hok
  obtain ⟨p, t, hpt, hpne, hev'⟩ := histLoop_ok_events _ _ _ _ _ hloop
  rw [List.nil_append] at hev'
  subst hev'
  refine ⟨hpne, ?_⟩
  rw [hev, hpt, List.take_left]

/-- Witness for C10 on the single-timer history truncated to task 1. -/
theorem claim_C10_witness :
    sampleHi1.events ≠ [] ∧
    sampleHi1.events = sampleHist.events.take sampleHi1.events.length :=
  claim_C10_retained_events sampleHist (some 1) sampleHi1 (by rfl)

/-- C2 (amended): every HistoryInfo produced by successful construction has
non-empty events whose first element carries WorkflowExecutionStarted
attributes with a workflow type name, so orig_run_id succeeds.  The original
claim extended this to instances mutated by make_incremental, which the code
refutes (see the counterexample): make_incremental drops the leading events,
so the property holds only for freshly constructed instances. -/
theorem claim_C2_amended (h : History) (to_wf_task_num : Option Nat)
    (hi : HistoryInfo) (hok : newFromHistory h to_wf_task_num = .ok hi) :
    hi.events ≠ [] ∧
    headIsWesWithType hi.events = true ∧
    (origRunId hi).isSome = true := by
  obtain ⟨e0, tl, attrs, wt, hev, hattr, hwt, hloop⟩ := newFromHistory_ok_elim hok
  obtain ⟨p, t, hpt, hpne, hev'⟩ := histLoop_ok_events _ _ _ _ _ hloop
  rw [List.nil_append] at hev'
  cases p with
  | nil => exact absurd rfl hpne
  | cons q qs =>
    have hq : q = e0 := by
      have := hpt.symm
      rw [List.cons_append] at this
      exact (List.cons.injEq _ _ _ _ ▸ this |> fun h => h.1)
    subst hq
    refine ⟨by rw [hev']; simp, ?_, ?_⟩
    · rw [hev']
      unfold headIsWesWithType
      simp [hattr, hwt]
    · unfold origRunId
      rw [hev']
      simp [hattr]

/-- C2 counterexample: on a validated history whose last event is the
WorkflowTaskCompleted, make_incremental leaves an empty events list, whose
first element is certainly not a WorkflowExecutionStarted event, and
orig_run_id hits its fatal path (modelled as `none`). -/
theorem claim_C2_counterexample :
    newFromHistory endsCompletedHist none = .ok endsCompletedHi ∧
    makeIncremental endsCompletedHi = some ⟨3, 3, [], 1, "wf"⟩ ∧
    (⟨3, 3, [], 1, "wf"⟩ : HistoryInfo).events = [] ∧
    origRunId ⟨3, 3, [], 1, "wf"⟩ = none :=
  ⟨by rfl, by rfl, rfl, rfl⟩

/-- Witness for C2 on the single-timer history truncated to task 1. -/
theorem claim_C2_witness :
    sampleHi1.events ≠ [] ∧
    headIsWesWithType sampleHi1.events = true ∧
    (origRunId sampleHi1).isSome = true :=
  claim_C2_amended sampleHist (some 1) sampleHi1 (by rfl)

/-- C9: on any non-empty input whose event ids are positive and strictly
ascending (the spec's data model for histories), construction terminates with
Ok or a typed validation error; the end-of-loop `unreachable!()` state is
never produced. -/
theorem claim_C9_no_unreachable (h : History) (to_wf_task_num : Option Nat)
    (hne : h.events ≠ [])
    (hasc : List.Pairwise (fun a b => a.event_id < b.event_id) h.events)
    (hpos : ∀ e ∈ h.events, 1 ≤ e.event_id) :
    newFromHistory h to_wf_task_num ≠ .error .unreachableState := by
  cases hev : h.events with
  | nil => exact absurd hev hne
  | cons e0 tl =>
    cases hattr : e0.attributes with
    | none =>
      rw [newFromHistory, hev]
      simp [hattr]
    | some a =>
      cases a with
      | otherAttributes =>
        rw [newFromHistory, hev]
        simp [hattr]
      | workflowExecutionStartedEventAttributes attrs =>
        cases hwt : attrs.workflow_type with
        | none =>
          rw [newFromHistory, hev]
          simp [hattr, hwt]
        | some wt =>
          rw [newFromHistory_eq_loop hev hattr hwt]
          refine histLoop_ne_unreachable (e0 :: tl) [] 0 0 ?_ ?_ (by simp)
          · intro x hx
            have h1 : 1 ≤ x.event_id := hpos x (by rw [hev]; exact hx)
            omega
          · rw [hev] at hasc
            exact hasc

/-- Witness for C9 on the single-timer history. -/
theorem claim_C9_witness :
    newFromHistory sampleHist (some 1) ≠ .error .unreachableState :=
  claim_C9_no_unreachable sampleHist (some 1) (by decide) (by decide) (by decide)

/-- C3 (amended): the never-equal guarantee holds exactly for constructions
that return at the truncation point (the retained events then end in the
closing WorkflowTaskStarted): there the duplicate-id bail enforces
previous ≠ started, and with positive strictly ascending ids previous <
started (already from one closed task on).  Constructions that return through
the synthesized terminal close instead set previous = started, refuting the
original claim (see the counterexample). -/
theorem claim_C3_amended (h : History) (to_wf_task_num : Option Nat)
    (hi : HistoryInfo) (s : HistoryEvent)
    (hok : newFromHistory h to_wf_task_num = .ok hi)
    (hlast : hi.events.getLast? = some s) :
    (s.event_type = EventType.workflowTaskStarted →
      hi.previous_started_event_id ≠ hi.workflow_task_started_event_id) ∧
    (¬ s.event_type = EventType.workflowTaskStarted →
      hi.previous_started_event_id = hi.workflow_task_started_event_id) ∧
    (s.event_type = EventType.workflowTaskStarted →
      List.Pairwise (fun a b => a.event_id < b.event_id) h.events →
      (∀ e ∈ h.events, 1 ≤ e.event_id) →
      hi.previous_started_event_id < hi.workflow_task_started_event_id) := by
  obtain ⟨e0, tl, attrs, wt, hev, hattr, hwt, hloop⟩ := newFromHistory_ok_elim hok
  obtain ⟨s', hs', hcases⟩ := histLoop_ok_last _ _ _ _ _ hloop
  have hss : s' = s := by
    rw [hlast] at hs'
    exact (Option.some.inj hs').symm
  subst hss
  refine ⟨?_, ?_, ?_⟩
  · intro hst
    rcases hcases with ⟨_, hmark, hneq⟩ | ⟨hnst, _⟩
    · rw [hmark]
      exact hneq
    · exact absurd hst hnst
  · intro hnst
    rcases hcases with ⟨hst, _, _⟩ | ⟨_, heq⟩
    · exact absurd hst hnst
    · exact heq
  · intro hst hasc hpos
    rw [hev] at hasc
    refine histLoop_ok_lt _ _ _ _ _ ?_ hasc hloop s' hlast hst
    intro x hx
    have h1 : 1 ≤ x.event_id := hpos x (by rw [hev]; exact hx)
    omega

/-- C3 counterexample: on a two-task history ending in a terminal execution
event, full-history construction succeeds with both started-id markers equal
to 6 (non-zero) and wf_task_count = 2, although the input ids are strictly
ascending — refuting both "never equal once both non-zero" and "two closed
tasks imply previous < started". -/
theorem claim_C3_counterexample :
    newFromHistory twoTaskTerminalHist none = .ok twoTaskTerminalHi ∧
    twoTaskTerminalHi.wf_task_count = 2 ∧
    twoTaskTerminalHi.previous_started_event_id
      = twoTaskTerminalHi.workflow_task_started_event_id ∧
    twoTaskTerminalHi.workflow_task_started_event_id ≠ 0 ∧
    twoTaskTerminalHist.events.map HistoryEvent.event_id
      = [1, 2, 3, 4, 5, 6, 7, 8] :=
  ⟨by rfl, rfl, rfl, by decide, by rfl⟩

/-- Witness for C3 on the single-timer history truncated to task 1: the
retained events end in TaskStarted(3), and 0 = previous < started = 3. -/
theorem claim_C3_witness :
    sampleHi1.previous_started_event_id
      ≠ sampleHi1.workflow_task_started_event_id ∧
    sampleHi1.previous_started_event_id
      < sampleHi1.workflow_task_started_event_id := by
  have h := claim_C3_amended sampleHist (some 1) sampleHi1
    (mkEv 3 .workflowTaskStarted) (by rfl) (by rfl)
  exact ⟨h.1 rfl, h.2.2 rfl (by decide) (by decide)⟩

/-- C7: a WorkflowTaskStarted event reached by the scan — i.e. behind a
structurally valid prefix with ascending positive ids whose closes have not
hit the truncation target — followed by an event that is none of
Completed/Failed/TimedOut makes construction fail with
UnexpectedEventAfterTaskStarted. -/
theorem claim_C7_unexpected (h : History) (to_wf_task_num : Option Nat)
    (pre : List HistoryEvent) (e ne : HistoryEvent) (rest : List HistoryEvent)
    (e0 : HistoryEvent) (tl : List HistoryEvent)
    (attrs : WorkflowExecutionStartedEventAttributes) (wt : WorkflowType)
    (hdec : h.events = pre ++ e :: ne :: rest)
    (hev : h.events = e0 :: tl)
    (hattr : e0.attributes = some (.workflowExecutionStartedEventAttributes attrs))
    (hwt : attrs.workflow_type = some wt)
    (he : e.event_type = EventType.workflowTaskStarted)
    (h1 : ¬ ne.event_type = EventType.workflowTaskCompleted)
    (h2 : ¬ ne.event_type = EventType.workflowTaskFailed)
    (h3 : ¬ ne.event_type = EventType.workflowTaskTimedOut)
    (hvs : validSuccessors (pre ++ [e]) = true)
    (hasc : List.Pairwise (fun a b => a.event_id < b.event_id) h.events)
    (hpos : ∀ x ∈ h.events, 1 ≤ x.event_id)
    (htr : ∀ k, to_wf_task_num = some k → closesCnt e pre < k) :
    newFromHistory h to_wf_task_num = .error .unexpectedEventAfterTaskStarted := by
  rw [newFromHistory_eq_loop hev hattr hwt, ← hev, hdec]
  have hasc2 : List.Pairwise (fun a b => a.event_id < b.event_id)
      (pre ++ e :: ne :: rest) := by
    rw [hdec] at hasc
    exact hasc
  have hpw : List.Pairwise (fun a b => a.event_id < b.event_id) pre :=
    (List.pairwise_append.mp hasc2).1
  have hlt0 : ∀ x ∈ pre, (0 : Int) < x.event_id := by
    intro x hx
    have hx' : 1 ≤ x.event_id := hpos x (by rw [hdec]; exact List.mem_append_left _ hx)
    omega
  rw [histLoop_factor pre e (ne :: rest) [] 0 0
    (noExitB_of_wf pre e 0 0 hvs hlt0 hpw (by intro k hk; have := htr k hk; omega))]
  exact histLoop_cons_badsucc List.head?_cons he h1 h2 h3

/-- Witness for C7: Started(1), TaskStarted(2), TimerStarted(3) fails. -/
theorem claim_C7_witness :
    newFromHistory badSuccessorHist none
      = .error .unexpectedEventAfterTaskStarted :=
  claim_C7_unexpected badSuccessorHist none [startEv]
    (mkEv 2 .workflowTaskStarted) (mkEv 3 .timerStarted) [] startEv
    [mkEv 2 .workflowTaskStarted, mkEv 3 .timerStarted]
    ⟨some ⟨"wf"⟩, "run1"⟩ ⟨"wf"⟩ rfl rfl rfl rfl rfl (by decide) (by decide)
    (by decide) (by decide) (by decide) (by decide)
    (fun k hk => nomatch hk)

/-- C1 (corrected): requesting task k (with the k-th closed task being the
WorkflowTaskStarted event `s`, closed by a Completed lookahead or by being
the last event) succeeds with wf_task_count = k and retains exactly the
prefix up to and including `s` itself — the closing WorkflowTaskCompleted
lookahead is NOT retained (the original claim included it; see the
counterexample). -/
theorem claim_C1_truncation (h : History) (k : Nat)
    (pre : List HistoryEvent) (s : HistoryEvent) (rest : List HistoryEvent)
    (e0 : HistoryEvent) (tl : List HistoryEvent)
    (attrs : WorkflowExecutionStartedEventAttributes) (wt : WorkflowType)
    (hdec : h.events = pre ++ s :: rest)
    (hev : h.events = e0 :: tl)
    (hattr : e0.attributes = some (.workflowExecutionStartedEventAttributes attrs))
    (hwt : attrs.workflow_type = some wt)
    (hs : s.event_type = EventType.workflowTaskStarted)
    (hclose : rest = [] ∨ ∃ ne rest2, rest = ne :: rest2 ∧
      ne.event_type = EventType.workflowTaskCompleted)
    (hvs : validSuccessors (pre ++ [s]) = true)
    (hasc : List.Pairwise (fun a b => a.event_id < b.event_id) h.events)
    (hpos : ∀ x ∈ h.events, 1 ≤ x.event_id)
    (hcnt : closesCnt s pre + 1 = k) :
    newFromHistory h (some k)
      = .ok ⟨closesW s 0 pre, s.event_id, pre ++ [s], k, wt.name⟩ := by
  rw [newFromHistory_eq_loop hev hattr hwt, ← hev, hdec]
  have hasc2 : List.Pairwise (fun a b => a.event_id < b.event_id)
      (pre ++ s :: rest) := by
    rw [hdec] at hasc
    exact hasc
  have hpw : List.Pairwise (fun a b => a.event_id < b.event_id) pre :=
    (List.pairwise_append.mp hasc2).1
  have hlt0 : ∀ x ∈ pre, (0 : Int) < x.event_id := by
    intro x hx
    have hx' : 1 ≤ x.event_id := hpos x (by rw [hdec]; exact List.mem_append_left _ hx)
    omega
  have htr : ∀ k2, (some k : Option Nat) = some k2 → closesCnt s pre < k2 := by
    intro k2 hk2
    injection hk2 with hk2
    omega
  rw [histLoop_factor pre s rest [] 0 0 (noExitB_of_wf pre s 0 0 hvs hlt0 hpw
    (by intro k2 hk2; have := htr k2 hk2; omega))]
  have hwlt : closesW s 0 pre < s.event_id := by
    apply closesW_lt
    · intro x hx
      exact (List.pairwise_append.mp hasc2).2.2 x hx s (by simp)
    · have h1 : 1 ≤ s.event_id := hpos s (by rw [hdec]; simp)
      omega
  have hid : ¬ s.event_id = closesW s 0 pre := by
    intro hcon
    omega
  have hk : 0 + closesCnt s pre + 1 = k := by omega
  rcases hclose with hrest | ⟨ne, rest2, hrest, hC⟩
  · subst hrest
    rw [histLoop_single_start hs hid, hk]
    rw [List.nil_append]
  · subst hrest
    rw [histLoop_cons_close_ret List.head?_cons hs hC hid
      (by simp only [Option.some.injEq]; omega), hk]
    rw [List.nil_append]

/-- C1 counterexample: on the single-timer history with target task 1, the
retained events are the three up to TaskStarted(3); the input prefix up to
and including the first WorkflowTaskCompleted is the four events up to
TaskCompleted(4), which is not what is retained. -/
theorem claim_C1_counterexample :
    newFromHistory sampleHist (some 1) = .ok sampleHi1 ∧
    sampleHi1.wf_task_count = 1 ∧
    (sampleHist.events.take 4).map HistoryEvent.event_type
      = [.workflowExecutionStarted, .workflowTaskScheduled,
         .workflowTaskStarted, .workflowTaskCompleted] ∧
    sampleHi1.events ≠ sampleHist.events.take 4 :=
  ⟨by rfl, rfl, by rfl, by decide⟩

/-- Witness for C1 on the single-timer history with target task 1. -/
theorem claim_C1_witness :
    newFromHistory sampleHist (some 1)
      = .ok ⟨0, 3, [startEv, mkEv 2 .workflowTaskScheduled,
          mkEv 3 .workflowTaskStarted], 1, "wf"⟩ :=
  claim_C1_truncation sampleHist 1
    [startEv, mkEv 2 .workflowTaskScheduled] (mkEv 3 .workflowTaskStarted)
    [mkEv 4 .workflowTaskCompleted, mkEv 5 .timerStarted, mkEv 6 .timerFired,
     mkEv 7 .workflowTaskScheduled, mkEv 8 .workflowTaskStarted]
    startEv
    [mkEv 2 .workflowTaskScheduled, mkEv 3 .workflowTaskStarted,
     mkEv 4 .workflowTaskCompleted, mkEv 5 .timerStarted, mkEv 6 .timerFired,
     mkEv 7 .workflowTaskScheduled, mkEv 8 .workflowTaskStarted]
    ⟨some ⟨"wf"⟩, "run1"⟩ ⟨"wf"⟩ rfl rfl rfl rfl rfl
    (Or.inr ⟨mkEv 4 .workflowTaskCompleted,
      [mkEv 5 .timerStarted, mkEv 6 .timerFired,
       mkEv 7 .workflowTaskScheduled, mkEv 8 .workflowTaskStarted], rfl, rfl⟩)
    (by decide) (by decide) (by decide) rfl

/-- C4 (corrected): if the scan reaches the last event without exiting and
that last event is a terminal workflow-execution event or the caller asked
for the full history, AND the last event is not itself a WorkflowTaskStarted
(the original claim omitted this; a trailing WorkflowTaskStarted takes the
closing path instead, see the counterexample), then construction succeeds,
retains every scanned event, sets previous equal to the current started
marker and leaves the started marker unchanged (the value accumulated over
the prefix). -/
theorem claim_C4_terminal_close (h : History) (to_wf_task_num : Option Nat)
    (pre : List HistoryEvent) (s : HistoryEvent)
    (e0 : HistoryEvent) (tl : List HistoryEvent)
    (attrs : WorkflowExecutionStartedEventAttributes) (wt : WorkflowType)
    (hdec : h.events = pre ++ [s])
    (hev : h.events = e0 :: tl)
    (hattr : e0.attributes = some (.workflowExecutionStartedEventAttributes attrs))
    (hwt : attrs.workflow_type = some wt)
    (hs : ¬ s.event_type = EventType.workflowTaskStarted)
    (hfin : isFinalWfExecutionEvent s = true ∨ to_wf_task_num = none)
    (hvs : validSuccessors (pre ++ [s]) = true)
    (hasc : List.Pairwise (fun a b => a.event_id < b.event_id) h.events)
    (hpos : ∀ x ∈ h.events, 1 ≤ x.event_id)
    (htr : ∀ k, to_wf_task_num = some k → closesCnt s pre < k) :
    newFromHistory h to_wf_task_num = .ok ⟨closesW s 0 pre, closesW s 0 pre,
      pre ++ [s], closesCnt s pre, wt.name⟩ := by
  rw [newFromHistory_eq_loop hev hattr hwt, ← hev, hdec]
  have hasc2 : List.Pairwise (fun a b => a.event_id < b.event_id)
      (pre ++ [s]) := by
    rw [hdec] at hasc
    exact hasc
  have hpw : List.Pairwise (fun a b => a.event_id < b.event_id) pre :=
    (List.pairwise_append.mp hasc2).1
  have hlt0 : ∀ x ∈ pre, (0 : Int) < x.event_id := by
    intro x hx
    have hx' : 1 ≤ x.event_id := hpos x (by rw [hdec]; exact List.mem_append_left _ hx)
    omega
  rw [histLoop_factor pre s [] [] 0 0 (noExitB_of_wf pre s 0 0 hvs hlt0 hpw
    (by intro k2 hk2; have := htr k2 hk2; omega))]
  have hfin' : isFinalWfExecutionEvent s = true ∨
      to_wf_task_num.isNone = true := by
    rcases hfin with hf | hf
    · exact Or.inl hf
    · exact Or.inr (by rw [hf]; rfl)
  rw [histLoop_single_final hs hfin', List.nil_append, Nat.zero_add]

/-- C4 counterexample: on the full single-timer history the scan reaches the
last event, TaskStarted(8), without having returned, and the caller requested
the full history; construction succeeds retaining everything but with
previous = 3 ≠ 8 = started, because the trailing WorkflowTaskStarted closes
through the task-closing path rather than the synthesized close. -/
theorem claim_C4_counterexample :
    newFromHistory sampleHist none = .ok sampleHiFull ∧
    sampleHiFull.events = sampleHist.events ∧
    sampleHiFull.previous_started_event_id
      ≠ sampleHiFull.workflow_task_started_event_id :=
  ⟨by rfl, rfl, by decide⟩

/-- Witness for C4 on a history ending in WorkflowExecutionCompleted(7). -/
theorem claim_C4_witness :
    newFromHistory terminalHist none
      = .ok ⟨3, 3, terminalHist.events, 1, "wf"⟩ :=
  claim_C4_terminal_close terminalHist none
    [startEv, mkEv 2 .workflowTaskScheduled, mkEv 3 .workflowTaskStarted,
     mkEv 4 .workflowTaskCompleted, mkEv 5 .timerStarted, mkEv 6 .timerFired]
    (mkEv 7 .workflowExecutionCompleted)
    startEv
    [mkEv 2 .workflowTaskScheduled, mkEv 3 .workflowTaskStarted,
     mkEv 4 .workflowTaskCompleted, mkEv 5 .timerStarted, mkEv 6 .timerFired,
     mkEv 7 .workflowExecutionCompleted]
    ⟨some ⟨"wf"⟩, "run1"⟩ ⟨"wf"⟩ rfl rfl rfl rfl (by decide)
    (Or.inl rfl) (by decide) (by decide) (by decide)
    (fun k hk => nomatch hk)

end TemporalHist
